import Mathlib

/-!
Shallow embedding of the record query service of the clinic/pharmacy
back-office repository (handlers `get_medicines.ts`, `create_patient.ts`,
and the transaction query handlers known through their tests and the
design document).

The persistent store is modelled as lists of rows; dates are modelled as
day numbers (the code stores dates as `YYYY-MM-DD` strings, whose SQL
ordering coincides with day ordering); SQL `ILIKE '%q%'` is modelled as a
case-insensitive substring test; JavaScript truthiness tests (`if
(input.query)`, `input?.limit ? ... : ...`) are modelled by explicit
truthiness functions on `Option` values.
-/

namespace RumahKhitan

/-- A stored medicine row (table `medicines`).  `price_per_unit` is the
stored decimal text; `expiry_date` is a nullable day number. -/
structure MedicineRow where
  id : Nat
  name : String
  stock_quantity : Int
  minimum_stock : Int
  price_per_unit : String
  expiry_date : Option Nat
deriving Repr, DecidableEq

inductive PaymentStatus where
  | pending
  | paid
  | cancelled
deriving Repr, DecidableEq

/-- A stored transaction row (table `transactions`). `total_amount` is the
stored decimal text; `created_at` is a timestamp modelled as Nat. -/
structure TransactionRow where
  id : Nat
  patient_id : Nat
  total_amount : String
  payment_status : PaymentStatus
  created_at : Nat
deriving Repr, DecidableEq

/-- A stored patient row (table `patients`). `date_of_birth` is the stored
`YYYY-MM-DD` date, modelled as a day number. -/
structure PatientRow where
  id : Nat
  name : String
  date_of_birth : Nat
  gender : String
  phone : String
  address : String
  emergency_contact : String
  medical_notes : String
deriving Repr, DecidableEq

/-- A JavaScript `Date`: a day number plus the milliseconds elapsed within
that (UTC) day.  `toISOString().split('T')[0]` keeps only `day`. -/
structure JsDate where
  day : Nat
  msOfDay : Nat
deriving Repr, DecidableEq

/-- `MedicineSearchInput` from the validation schema: all fields optional. -/
structure MedicineSearchInput where
  query : Option String
  low_stock_only : Option Bool
  expired_only : Option Bool
  limit : Option Nat
  offset : Option Nat
deriving Repr, DecidableEq

/-! JavaScript truthiness on optional fields: `undefined`, the empty
string, `false` and `0` are falsy. -/

def truthyStr : Option String → Bool
  | some s => s != ""
  | none => false

def truthyBool : Option Bool → Bool
  | some b => b
  | none => false

def truthyNat : Option Nat → Bool
  | some n => n != 0
  | none => false

/-! `ILIKE '%q%'`: case-insensitive substring containment. -/

def lowerChars (s : String) : List Char :=
  s.toList.map Char.toLower

def prefixCheck : List Char → List Char → Bool
  | [], _ => true
  | _ :: _, [] => false
  | a :: as, b :: bs => a == b && prefixCheck as bs

def infixCheck (needle : List Char) : List Char → Bool
  | [] => prefixCheck needle []
  | c :: t => prefixCheck needle (c :: t) || infixCheck needle t

/-- `ilike(medicinesTable.name, `%q%`)` on a row with name `hay`. -/
def ilikeSub (hay pat : String) : Bool :=
  infixCheck (lowerChars pat) (lowerChars hay)

/-- `lte(medicinesTable.stock_quantity, medicinesTable.minimum_stock)`. -/
def lowStockCond (r : MedicineRow) : Bool :=
  decide (r.stock_quantity ≤ r.minimum_stock)

/-- `lte(medicinesTable.expiry_date, today)`: a SQL comparison against a
NULL `expiry_date` is not true, so a null expiry date never matches. -/
def expiredCond (today : Nat) (r : MedicineRow) : Bool :=
  match r.expiry_date with
  | some d => decide (d ≤ today)
  | none => false

/-- The `conditions` list built by `getMedicines`: one push per
truthy-present filter field, in source order. -/
def medicineConditions (input : Option MedicineSearchInput) (today : Nat) :
    List (MedicineRow → Bool) :=
  match input with
  | none => []
  | some i =>
      (if truthyStr i.query then [fun r => ilikeSub r.name (i.query.getD "")] else []) ++
      (if truthyBool i.low_stock_only then [lowStockCond] else []) ++
      (if truthyBool i.expired_only then [expiredCond today] else [])

/-- `WHERE`: no clause when the condition list is empty, otherwise the
conjunction of all conditions. -/
def applyWhere {α : Type} (conds : List (α → Bool)) (db : List α) : List α :=
  if conds.isEmpty then db else db.filter (fun r => conds.all (fun c => c r))

/-- Lexicographic order on character lists: the SQL ordering of the
stored `varchar`/`date` text values. -/
def charListLe : List Char → List Char → Bool
  | [], _ => true
  | _ :: _, [] => false
  | a :: as, b :: bs => decide (a < b) || (a == b && charListLe as bs)

/-- Lexicographic order on strings. -/
def strLe (a b : String) : Bool := charListLe a.toList b.toList

theorem charListLe_total : ∀ as bs : List Char,
    charListLe as bs = true ∨ charListLe bs as = true
  | [], _ => Or.inl rfl
  | _ :: _, [] => Or.inr rfl
  | a :: as, b :: bs => by
    rcases lt_trichotomy a b with h | h | h
    · exact Or.inl (by simp [charListLe, h])
    · subst h
      rcases charListLe_total as bs with ih | ih
      · exact Or.inl (by simp [charListLe, ih])
      · exact Or.inr (by simp [charListLe, ih])
    · exact Or.inr (by simp [charListLe, h])

theorem charListLe_trans : ∀ as bs cs : List Char,
    charListLe as bs = true → charListLe bs cs = true →
    charListLe as cs = true
  | [], _, _, _, _ => rfl
  | _ :: _, [], _, hab, _ => by simp [charListLe] at hab
  | _ :: _, _ :: _, [], _, hbc => by simp [charListLe] at hbc
  | a :: as, b :: bs, c :: cs, hab, hbc => by
    simp only [charListLe, Bool.or_eq_true, Bool.and_eq_true,
      decide_eq_true_eq, beq_iff_eq] at hab hbc ⊢
    rcases hab with hab | ⟨rfl, hab⟩
    · rcases hbc with hbc | ⟨rfl, _⟩
      · exact Or.inl (lt_trans hab hbc)
      · exact Or.inl hab
    · rcases hbc with hbc | ⟨rfl, hbc⟩
      · exact Or.inl hbc
      · exact Or.inr ⟨rfl, charListLe_trans as bs cs hab hbc⟩

/-- `ORDER BY medicinesTable.name` (ascending). -/
def nameLe (a b : MedicineRow) : Prop := strLe a.name b.name = true

instance : DecidableRel nameLe := fun a b =>
  inferInstanceAs (Decidable (strLe a.name b.name = true))

instance : IsTotal MedicineRow nameLe :=
  ⟨fun a b => charListLe_total a.name.toList b.name.toList⟩

instance : IsTrans MedicineRow nameLe :=
  ⟨fun a b c hab hbc =>
    charListLe_trans a.name.toList b.name.toList c.name.toList hab hbc⟩

/-- The row-level pipeline of `getMedicines`: build conditions, apply the
where clause, order by name ascending, then apply `LIMIT`/`OFFSET`, each
only when the corresponding input field is truthy. -/
def runMedicinesQuery (db : List MedicineRow) (input : Option MedicineSearchInput)
    (today : Nat) : List MedicineRow :=
  let conditions := medicineConditions input today
  let filtered := applyWhere conditions db
  let ordered := List.insertionSort nameLe filtered
  let afterOffset :=
    match input with
    | some i => if truthyNat i.offset then ordered.drop (i.offset.getD 0) else ordered
    | none => ordered
  match input with
  | some i => if truthyNat i.limit then afterOffset.take (i.limit.getD 0) else afterOffset
  | none => afterOffset

/-- `getMedicineById`: select rows with the given id, `null` when the
result list is empty, otherwise the first row. -/
def getMedicineById (db : List MedicineRow) (id : Nat) : Option MedicineRow :=
  match db.filter (fun r => r.id == id) with
  | [] => none
  | r :: _ => some r

/-- `ORDER BY minimum_stock DESC, name ASC` of `getLowStockMedicines`. -/
def lowStockOrder (a b : MedicineRow) : Prop :=
  b.minimum_stock < a.minimum_stock ∨
    (a.minimum_stock = b.minimum_stock ∧ strLe a.name b.name = true)

instance : DecidableRel lowStockOrder := fun _ _ =>
  inferInstanceAs (Decidable (_ ∨ _))

/-- `getLowStockMedicines`: where stock ≤ minimum, ordered. -/
def getLowStockMedicines (db : List MedicineRow) : List MedicineRow :=
  List.insertionSort lowStockOrder (db.filter lowStockCond)

/-- `ORDER BY expiry_date ASC, name ASC` of `getExpiredMedicines`; the
rows reaching the ordering step all have a non-null expiry date, so the
`getD` default is never exercised. -/
def expiredOrder (a b : MedicineRow) : Prop :=
  a.expiry_date.getD 0 < b.expiry_date.getD 0 ∨
    (a.expiry_date.getD 0 = b.expiry_date.getD 0 ∧ strLe a.name b.name = true)

instance : DecidableRel expiredOrder := fun _ _ =>
  inferInstanceAs (Decidable (_ ∨ _))

/-- `getExpiredMedicines`: where expiry_date ≤ today, ordered. -/
def getExpiredMedicines (db : List MedicineRow) (today : Nat) : List MedicineRow :=
  List.insertionSort expiredOrder (db.filter (expiredCond today))

/-! Transaction handlers.  The handler module `get_transactions.ts` is
known through its test suite and the design document. -/

/-- `TransactionSearchInput` from the validation schema. -/
structure TransactionSearchInput where
  patient_id : Option Nat
  payment_status : Option PaymentStatus
  start_date : Option Nat
  end_date : Option Nat
  limit : Option Nat
  offset : Option Nat
deriving Repr, DecidableEq

/-- Modelled from the spec: the condition list of `getTransactions`
(handler source not under src/, only its tests).  §4.1: filter fields —
patient id (exact match), payment status (exact match), creation date ≥
start, creation date ≤ end; all optional, combinable via logical AND; a
present field appends its predicate, an absent one appends nothing. -/
def transactionConditions (input : Option TransactionSearchInput) :
    List (TransactionRow → Bool) :=
  match input with
  | none => []
  | some i =>
      (match i.patient_id with
        | some p => [fun t => t.patient_id == p]
        | none => []) ++
      (match i.payment_status with
        | some s => [fun t => t.payment_status == s]
        | none => []) ++
      (match i.start_date with
        | some d => [fun t => decide (d ≤ t.created_at)]
        | none => []) ++
      (match i.end_date with
        | some d => [fun t => decide (t.created_at ≤ d)]
        | none => [])

/-- `ORDER BY created_at DESC`. -/
def createdDesc (a b : TransactionRow) : Prop := b.created_at ≤ a.created_at

instance : DecidableRel createdDesc := fun a b =>
  inferInstanceAs (Decidable (b.created_at ≤ a.created_at))

instance : IsTotal TransactionRow createdDesc :=
  ⟨fun a b => le_total b.created_at a.created_at⟩

instance : IsTrans TransactionRow createdDesc :=
  ⟨fun _ _ _ hab hbc => le_trans hbc hab⟩

/-- Modelled from the spec: `getTransactions` (handler source not under
src/).  §4.1: conjoin present predicates, order by creation timestamp
descending, then `limit` (unset → all rows) and `offset` (default 0)
applied after ordering. -/
def getTransactions (db : List TransactionRow)
    (input : Option TransactionSearchInput) : List TransactionRow :=
  let conditions := transactionConditions input
  let filtered := applyWhere conditions db
  let ordered := List.insertionSort createdDesc filtered
  let afterOffset :=
    match input with
    | some i => ordered.drop (i.offset.getD 0)
    | none => ordered
  match input with
  | some i =>
      match i.limit with
      | some l => afterOffset.take l
      | none => afterOffset
  | none => afterOffset

/-- Modelled from the spec: `getTransactionById` (handler source not under
src/).  §4.1: exact-match lookup; returns the record or the explicit
not-found signal. -/
def getTransactionById (db : List TransactionRow) (id : Nat) :
    Option TransactionRow :=
  match db.filter (fun t => t.id == id) with
  | [] => none
  | t :: _ => some t

/-- Modelled from the spec: `getTodayTransactions` (handler source not
under src/).  §4.1: specialization of `getTransactions` with start =
local midnight of the current day, end unset, newest first. -/
def getTodayTransactions (db : List TransactionRow) (todayStart : Nat) :
    List TransactionRow :=
  getTransactions db (some ⟨none, none, some todayStart, none, none, none⟩)

/-- Modelled from the spec: `getPendingTransactions` (handler source not
under src/).  §4.1: specialization filtering payment status = pending,
newest first. -/
def getPendingTransactions (db : List TransactionRow) : List TransactionRow :=
  getTransactions db (some ⟨none, some .pending, none, none, none, none⟩)

/-! `createPatient` and the persistent store. -/

/-- `CreatePatientInput` from the validation schema. -/
structure CreatePatientInput where
  name : String
  date_of_birth : JsDate
  gender : String
  phone : String
  address : String
  emergency_contact : String
  medical_notes : String
deriving Repr, DecidableEq

/-- `input.date_of_birth.toISOString().split('T')[0]`: the stored date
keeps only the day, dropping the time of day. -/
def toIsoDatePart (d : JsDate) : Nat := d.day

/-- `new Date(storedString)` on a stored `YYYY-MM-DD` date: UTC midnight
of that day. -/
def parseIsoDate (n : Nat) : JsDate := ⟨n, 0⟩

/-- The returned `Patient` record: the stored row with `date_of_birth`
converted back to a semantic date. -/
structure Patient where
  id : Nat
  name : String
  date_of_birth : JsDate
  gender : String
  phone : String
  address : String
  emergency_contact : String
  medical_notes : String
deriving Repr, DecidableEq

/-- The persistent store: one list of rows per table, plus the sequence
feeding the next generated primary key. -/
structure Store where
  medicines : List MedicineRow
  transactions : List TransactionRow
  patients : List PatientRow
  nextId : Nat
deriving Repr, DecidableEq

/-- The single `SELECT` a medicine query issues: reads the table, leaves
the store as it is. -/
def dbSelectMedicines (s : Store) : Store × List MedicineRow :=
  (s, s.medicines)

/-- The single `SELECT` a transaction query issues. -/
def dbSelectTransactions (s : Store) : Store × List TransactionRow :=
  (s, s.transactions)

/-- `db.insert(patientsTable).values(...).returning()`: appends the new
row and returns it. -/
def dbInsertPatient (s : Store) (row : PatientRow) : Store × PatientRow :=
  ({ s with patients := s.patients ++ [row], nextId := s.nextId + 1 }, row)

/-- `createPatient` over the store: convert the date of birth to its
storage form, insert the row, convert the stored date back on return. -/
def createPatientS (s : Store) (input : CreatePatientInput) : Store × Patient :=
  let dateString := toIsoDatePart input.date_of_birth
  let row : PatientRow :=
    { id := s.nextId
      name := input.name
      date_of_birth := dateString
      gender := input.gender
      phone := input.phone
      address := input.address
      emergency_contact := input.emergency_contact
      medical_notes := input.medical_notes }
  let inserted := dbInsertPatient s row
  let patient := inserted.2
  (inserted.1,
    { id := patient.id
      name := patient.name
      date_of_birth := parseIsoDate patient.date_of_birth
      gender := patient.gender
      phone := patient.phone
      address := patient.address
      emergency_contact := patient.emergency_contact
      medical_notes := patient.medical_notes })

/-! State-passing forms of the read operations: each issues its one
`SELECT` and post-processes the rows. -/

def getMedicinesS (s : Store) (input : Option MedicineSearchInput)
    (today : Nat) : Store × List MedicineRow :=
  let fetched := dbSelectMedicines s
  (fetched.1, runMedicinesQuery fetched.2 input today)

def getMedicineByIdS (s : Store) (id : Nat) : Store × Option MedicineRow :=
  let fetched := dbSelectMedicines s
  (fetched.1, getMedicineById fetched.2 id)

def getLowStockMedicinesS (s : Store) : Store × List MedicineRow :=
  let fetched := dbSelectMedicines s
  (fetched.1, getLowStockMedicines fetched.2)

def getExpiredMedicinesS (s : Store) (today : Nat) : Store × List MedicineRow :=
  let fetched := dbSelectMedicines s
  (fetched.1, getExpiredMedicines fetched.2 today)

def getTransactionsS (s : Store) (input : Option TransactionSearchInput) :
    Store × List TransactionRow :=
  let fetched := dbSelectTransactions s
  (fetched.1, getTransactions fetched.2 input)

def getTransactionByIdS (s : Store) (id : Nat) : Store × Option TransactionRow :=
  let fetched := dbSelectTransactions s
  (fetched.1, getTransactionById fetched.2 id)

def getTodayTransactionsS (s : Store) (todayStart : Nat) :
    Store × List TransactionRow :=
  let fetched := dbSelectTransactions s
  (fetched.1, getTodayTransactions fetched.2 todayStart)

def getPendingTransactionsS (s : Store) : Store × List TransactionRow :=
  let fetched := dbSelectTransactions s
  (fetched.1, getPendingTransactions fetched.2)

/-! The `try { ... } catch (error) { console.error(msg, error); throw
error }` wrapper shared by every handler: the persistence round trip is
the only fallible step; on failure the message is logged and the very
same error is rethrown; on success nothing is logged. -/

def tryCatchLog {α : Type} (msg : String) (body : Except String α) :
    Except String α × List String :=
  match body with
  | .ok a => (.ok a, [])
  | .error e => (.error e, [msg])

/-- `getMedicines` with the fallible persistence round trip explicit. -/
def getMedicinesE (fetch : Except String (List MedicineRow))
    (input : Option MedicineSearchInput) (today : Nat) :
    Except String (List MedicineRow) × List String :=
  tryCatchLog "Failed to get medicines:"
    (fetch.map (fun rows => runMedicinesQuery rows input today))

/-- `getMedicineById` with the fallible persistence round trip explicit. -/
def getMedicineByIdE (fetch : Except String (List MedicineRow)) (id : Nat) :
    Except String (Option MedicineRow) × List String :=
  tryCatchLog "Failed to get medicine by ID:"
    (fetch.map (fun rows => getMedicineById rows id))

/-- `getLowStockMedicines` with the fallible round trip explicit. -/
def getLowStockMedicinesE (fetch : Except String (List MedicineRow)) :
    Except String (List MedicineRow) × List String :=
  tryCatchLog "Failed to get low stock medicines:"
    (fetch.map getLowStockMedicines)

/-- `getExpiredMedicines` with the fallible round trip explicit. -/
def getExpiredMedicinesE (fetch : Except String (List MedicineRow))
    (today : Nat) : Except String (List MedicineRow) × List String :=
  tryCatchLog "Failed to get expired medicines:"
    (fetch.map (fun rows => getExpiredMedicines rows today))

/-- `createPatient` with the fallible insert explicit: `insert` returns
the stored row, which is then converted for the caller. -/
def createPatientE (insert : Except String PatientRow) :
    Except String Patient × List String :=
  tryCatchLog "Patient creation failed:"
    (insert.map (fun patient =>
      { id := patient.id
        name := patient.name
        date_of_birth := parseIsoDate patient.date_of_birth
        gender := patient.gender
        phone := patient.phone
        address := patient.address
        emergency_contact := patient.emergency_contact
        medical_notes := patient.medical_notes }))

/-! Shared lemmas. -/

theorem mem_applyWhere {α : Type} (conds : List (α → Bool)) (db : List α)
    (x : α) : x ∈ applyWhere conds db ↔ x ∈ db ∧ ∀ c ∈ conds, c x = true := by
  unfold applyWhere
  cases conds with
  | nil => simp
  | cons c cs => simp [List.mem_filter, List.all_eq_true]

theorem expiredCond_eq_true {today : Nat} {m : MedicineRow} :
    expiredCond today m = true ↔ ∃ d, m.expiry_date = some d ∧ d ≤ today := by
  cases h : m.expiry_date <;> simp [expiredCond, h]

/-- C4: the low-stock predicate of `getLowStockMedicines` and of the
`low_stock_only` filter of `getMedicines` includes a medicine exactly when
`stock_quantity ≤ minimum_stock`; stock 5 with minimum 10 is included,
stock 10 with minimum 10 is included (boundary), stock 11 with minimum 10
is excluded. -/
theorem lowStock_pred_spec (db : List MedicineRow) (m : MedicineRow)
    (today : Nat) :
    (m ∈ getLowStockMedicines db ↔
        m ∈ db ∧ m.stock_quantity ≤ m.minimum_stock)
    ∧ (m ∈ runMedicinesQuery db (some ⟨none, some true, none, none, none⟩) today ↔
        m ∈ db ∧ m.stock_quantity ≤ m.minimum_stock)
    ∧ lowStockCond ⟨1, "a", 5, 10, "0", none⟩ = true
    ∧ lowStockCond ⟨1, "a", 10, 10, "0", none⟩ = true
    ∧ lowStockCond ⟨1, "a", 11, 10, "0", none⟩ = false := by
  have hrun : runMedicinesQuery db (some ⟨none, some true, none, none, none⟩) today
      = List.insertionSort nameLe (applyWhere [lowStockCond] db) := rfl
  refine ⟨?_, ?_, by decide, by decide, by decide⟩
  · simp [getLowStockMedicines, List.mem_filter, lowStockCond]
  · rw [hrun]
    simp [mem_applyWhere, lowStockCond]

/-- C5: the expired predicate of `getExpiredMedicines` and of the
`expired_only` filter of `getMedicines` includes a medicine exactly when
its expiry date is present and on or before the current date; an expiry
date equal to today is included (boundary), tomorrow is excluded, and a
null expiry date is never expired. -/
theorem expired_pred_spec (db : List MedicineRow) (m : MedicineRow)
    (today : Nat) :
    (m ∈ getExpiredMedicines db today ↔
        m ∈ db ∧ ∃ d, m.expiry_date = some d ∧ d ≤ today)
    ∧ (m ∈ runMedicinesQuery db (some ⟨none, none, some true, none, none⟩) today ↔
        m ∈ db ∧ ∃ d, m.expiry_date = some d ∧ d ≤ today)
    ∧ expiredCond today ⟨1, "a", 0, 0, "0", some today⟩ = true
    ∧ expiredCond today ⟨1, "a", 0, 0, "0", some (today + 1)⟩ = false
    ∧ expiredCond today ⟨1, "a", 0, 0, "0", none⟩ = false := by
  have hrun : runMedicinesQuery db (some ⟨none, none, some true, none, none⟩) today
      = List.insertionSort nameLe (applyWhere [expiredCond today] db) := rfl
  refine ⟨?_, ?_, ?_, ?_, ?_⟩
  · simp only [getExpiredMedicines, List.mem_insertionSort, List.mem_filter,
      expiredCond_eq_true]
  · rw [hrun]
    simp only [List.mem_insertionSort, mem_applyWhere, List.mem_singleton,
      forall_eq, expiredCond_eq_true]
  · simp [expiredCond]
  · simp [expiredCond]
  · simp [expiredCond]

theorem headFilter_eq_find {α : Type} (p : α → Bool) (db : List α) :
    (db.filter p).head? = db.find? p := by
  induction db with
  | nil => rfl
  | cons a l ih => cases h : p a <;> simp [List.filter_cons, h, ih, List.find?_cons]

theorem getMedicineById_eq_head (db : List MedicineRow) (i : Nat) :
    getMedicineById db i = (db.filter (fun r => r.id == i)).head? := by
  unfold getMedicineById
  cases db.filter (fun r => r.id == i) <;> rfl

theorem getTransactionById_eq_head (db : List TransactionRow) (j : Nat) :
    getTransactionById db j = (db.filter (fun t => t.id == j)).head? := by
  unfold getTransactionById
  cases db.filter (fun t => t.id == j) <;> rfl

/-- C3: `getMedicineById` and `getTransactionById` return the explicit
not-found signal (`none`) exactly when no record has the requested id,
and on a match return a record of the store with that id; both are total
functions, so absence never raises an error. -/
theorem getById_not_found_spec (dbM : List MedicineRow)
    (dbT : List TransactionRow) (i j : Nat) :
    (getMedicineById dbM i = none ↔ ∀ m ∈ dbM, m.id ≠ i)
    ∧ (∀ m, getMedicineById dbM i = some m → m ∈ dbM ∧ m.id = i)
    ∧ (getTransactionById dbT j = none ↔ ∀ t ∈ dbT, t.id ≠ j)
    ∧ (∀ t, getTransactionById dbT j = some t → t ∈ dbT ∧ t.id = j) := by
  rw [getMedicineById_eq_head, getTransactionById_eq_head,
    headFilter_eq_find, headFilter_eq_find]
  refine ⟨?_, ?_, ?_, ?_⟩
  · simp [List.find?_eq_none]
  · intro m hm
    exact ⟨List.mem_of_find?_eq_some hm, by simpa using List.find?_some hm⟩
  · simp [List.find?_eq_none]
  · intro t ht
    exact ⟨List.mem_of_find?_eq_some ht, by simpa using List.find?_some ht⟩

/-- Witness for C3 at a concrete store: ids 2 and 9 are absent, so both
lookups return the not-found signal. -/
theorem getById_not_found_witness :
    getMedicineById [⟨1, "a", 0, 0, "0", none⟩] 2 = none
    ∧ getTransactionById [⟨1, 7, "100000", .pending, 50⟩] 9 = none := by
  have h := getById_not_found_spec [⟨1, "a", 0, 0, "0", none⟩]
      [⟨1, 7, "100000", .pending, 50⟩] 2 9
  exact ⟨(h.1).2 (by decide), (h.2.2.1).2 (by decide)⟩

/-- C6: `createPatient` appends exactly one new patient row whose stored
date of birth is the day part of the input date, and the returned record
carries a date of birth equal to the input at day granularity. -/
theorem createPatient_dob_roundtrip (s : Store) (input : CreatePatientInput) :
    ∃ row : PatientRow,
      (createPatientS s input).1.patients = s.patients ++ [row]
      ∧ row.date_of_birth = input.date_of_birth.day
      ∧ row.name = input.name
      ∧ (createPatientS s input).2.date_of_birth.day = input.date_of_birth.day :=
  ⟨_, rfl, rfl, rfl, rfl⟩

/-- C7: on a persistence-layer error each handler logs its message and
returns the very same error, with no result payload. -/
theorem storage_error_logged_rethrown (e : String)
    (input : Option MedicineSearchInput) (today i : Nat) :
    getMedicinesE (.error e) input today
      = (.error e, ["Failed to get medicines:"])
    ∧ getMedicineByIdE (.error e) i
      = (.error e, ["Failed to get medicine by ID:"])
    ∧ getLowStockMedicinesE (.error e)
      = (.error e, ["Failed to get low stock medicines:"])
    ∧ getExpiredMedicinesE (.error e) today
      = (.error e, ["Failed to get expired medicines:"])
    ∧ createPatientE (.error e)
      = (.error e, ["Patient creation failed:"]) :=
  ⟨rfl, rfl, rfl, rfl, rfl⟩

/-- C9: every query operation returns the store it was given: no entity
is created, mutated or destroyed by a read. -/
theorem reads_leave_store_unchanged (s : Store)
    (input : Option MedicineSearchInput)
    (tinput : Option TransactionSearchInput)
    (today todayStart i j : Nat) :
    (getMedicinesS s input today).1 = s
    ∧ (getMedicineByIdS s i).1 = s
    ∧ (getLowStockMedicinesS s).1 = s
    ∧ (getExpiredMedicinesS s today).1 = s
    ∧ (getTransactionsS s tinput).1 = s
    ∧ (getTransactionByIdS s j).1 = s
    ∧ (getTodayTransactionsS s todayStart).1 = s
    ∧ (getPendingTransactionsS s).1 = s :=
  ⟨rfl, rfl, rfl, rfl, rfl, rfl, rfl, rfl⟩

theorem none_eq_some_iff_false {α : Type} (a : α) : (none = some a) = False :=
  eq_false fun h => Option.noConfusion h

theorem truthyNat_some_zero : truthyNat (some 0) = false := rfl

theorem truthyNat_some_pos {n : Nat} (h : n ≠ 0) : truthyNat (some n) = true := by
  simp [truthyNat, h]

theorem runMedicinesQuery_some (db : List MedicineRow)
    (i : MedicineSearchInput) (today : Nat) :
    runMedicinesQuery db (some i) today
      = (let ordered := List.insertionSort nameLe
            (applyWhere (medicineConditions (some i) today) db)
         let afterOffset :=
            if truthyNat i.offset then ordered.drop (i.offset.getD 0) else ordered
         if truthyNat i.limit then afterOffset.take (i.limit.getD 0)
         else afterOffset) := rfl

theorem medicineConditions_pagination_invariant (i : MedicineSearchInput)
    (lm off : Option Nat) (today : Nat) :
    medicineConditions (some { i with limit := lm, offset := off }) today
      = medicineConditions (some i) today := rfl

/-- C1: with pagination absent, the rows returned by `getMedicines` and by
`getTransactions` are exactly those satisfying the conjunction of the
predicates of the truthy-present filter fields; an absent field
contributes no predicate, and with no present field every record
matches. -/
theorem filter_and_composition (dbM : List MedicineRow)
    (dbT : List TransactionRow) (i : MedicineSearchInput)
    (t : TransactionSearchInput) (today : Nat)
    (hl : truthyNat i.limit = false) (ho : truthyNat i.offset = false)
    (hl2 : t.limit = none) (ho2 : t.offset = none) :
    (∀ m, m ∈ runMedicinesQuery dbM (some i) today ↔
        m ∈ dbM
        ∧ (truthyStr i.query = true → ilikeSub m.name (i.query.getD "") = true)
        ∧ (truthyBool i.low_stock_only = true → lowStockCond m = true)
        ∧ (truthyBool i.expired_only = true → expiredCond today m = true))
    ∧ (∀ tx, tx ∈ getTransactions dbT (some t) ↔
        tx ∈ dbT
        ∧ (∀ p, t.patient_id = some p → tx.patient_id = p)
        ∧ (∀ st, t.payment_status = some st → tx.payment_status = st)
        ∧ (∀ d, t.start_date = some d → d ≤ tx.created_at)
        ∧ (∀ d, t.end_date = some d → tx.created_at ≤ d)) := by
  constructor
  · intro m
    have hrunM : runMedicinesQuery dbM (some i) today
        = List.insertionSort nameLe
            (applyWhere (medicineConditions (some i) today) dbM) := by
      rw [runMedicinesQuery_some]
      simp only [hl, ho, Bool.false_eq_true, if_false]
    rw [hrunM, List.mem_insertionSort, mem_applyWhere]
    refine and_congr_right fun _ => ?_
    cases hq : truthyStr i.query <;> cases hls : truthyBool i.low_stock_only <;>
      cases he : truthyBool i.expired_only <;>
      simp [medicineConditions, hq, hls, he, and_assoc]
  · intro tx
    have hrunT : getTransactions dbT (some t)
        = List.insertionSort createdDesc
            (applyWhere (transactionConditions (some t)) dbT) := by
      simp [getTransactions, hl2, ho2]
    rw [hrunT, List.mem_insertionSort, mem_applyWhere]
    refine and_congr_right fun _ => ?_
    obtain ⟨tp, tps, tsd, ted, tl, tof⟩ := t
    cases tp <;> cases tps <;> cases tsd <;> cases ted <;>
      simp [transactionConditions, none_eq_some_iff_false, and_assoc]

/-- Witness for C1 at a concrete store and filter. -/
theorem filter_and_composition_witness :
    (⟨1, "Amoxicillin", 5, 10, "5000", some 100⟩ : MedicineRow) ∈
      runMedicinesQuery
        [⟨1, "Amoxicillin", 5, 10, "5000", some 100⟩,
         ⟨2, "Betadine", 20, 10, "7000", none⟩]
        (some ⟨some "amo", some true, none, none, none⟩) 0
    ∧ (⟨1, 7, "100000", .pending, 50⟩ : TransactionRow) ∈
      getTransactions
        [⟨1, 7, "100000", .pending, 50⟩, ⟨2, 8, "200000", .paid, 60⟩]
        (some ⟨some 7, some .pending, some 40, none, none, none⟩) := by
  have h := filter_and_composition
    [⟨1, "Amoxicillin", 5, 10, "5000", some 100⟩,
     ⟨2, "Betadine", 20, 10, "7000", none⟩]
    [⟨1, 7, "100000", .pending, 50⟩, ⟨2, 8, "200000", .paid, 60⟩]
    ⟨some "amo", some true, none, none, none⟩
    ⟨some 7, some .pending, some 40, none, none, none⟩ 0 rfl rfl rfl rfl
  refine ⟨(h.1 _).2 ⟨by simp, by decide, by decide, by decide⟩,
    (h.2 _).2 ⟨by simp, ?_, ?_, ?_, ?_⟩⟩ <;> intro x hx <;> cases hx <;> decide

/-- C8: the result of `getMedicines` is always sorted by name ascending,
and a truthy limit with any offset is applied after the ordering: the
paginated result is `take limit` of `drop offset` of the unpaginated
result. -/
theorem medicines_order_pagination (db : List MedicineRow)
    (input : Option MedicineSearchInput) (today : Nat) :
    List.Sorted nameLe (runMedicinesQuery db input today)
    ∧ (∀ (i : MedicineSearchInput) (l o : Nat), l ≠ 0 →
        runMedicinesQuery db
            (some { i with limit := some l, offset := some o }) today
          = (List.drop o (runMedicinesQuery db
              (some { i with limit := none, offset := none }) today)).take l) := by
  constructor
  · cases input with
    | none => exact List.sorted_insertionSort nameLe _
    | some i =>
      have hs : List.Sorted nameLe (List.insertionSort nameLe
          (applyWhere (medicineConditions (some i) today) db)) :=
        List.sorted_insertionSort nameLe _
      rw [runMedicinesQuery_some]
      cases ho : truthyNat i.offset <;> cases hl : truthyNat i.limit <;>
        simp only [ho, hl, Bool.false_eq_true, if_false, if_true] <;>
        first
          | exact hs
          | exact hs.sublist (List.drop_sublist _ _)
          | exact hs.sublist (List.take_sublist _ _)
          | exact hs.sublist
              ((List.take_sublist _ _).trans (List.drop_sublist _ _))
  · intro i l o hl0
    have hfull : runMedicinesQuery db
        (some { i with limit := none, offset := none }) today
        = List.insertionSort nameLe
            (applyWhere (medicineConditions (some i) today) db) := rfl
    rw [hfull, runMedicinesQuery_some]
    by_cases ho0 : o = 0
    · subst ho0
      simp only [medicineConditions_pagination_invariant, truthyNat_some_zero,
        truthyNat_some_pos hl0, Bool.false_eq_true, if_false, if_true,
        Option.getD_some, List.drop_zero]
    · simp only [medicineConditions_pagination_invariant,
        truthyNat_some_pos hl0, truthyNat_some_pos ho0, if_true,
        Option.getD_some]

/-- Witness for C8: limit 2, offset 1 over five records returns the rows
ranked second and third by name. -/
theorem medicines_order_pagination_witness :
    runMedicinesQuery
        [⟨3, "c", 0, 0, "0", none⟩, ⟨1, "a", 0, 0, "0", none⟩,
         ⟨5, "e", 0, 0, "0", none⟩, ⟨2, "b", 0, 0, "0", none⟩,
         ⟨4, "d", 0, 0, "0", none⟩]
        (some ⟨none, none, none, some 2, some 1⟩) 0
      = [⟨2, "b", 0, 0, "0", none⟩, ⟨3, "c", 0, 0, "0", none⟩] := by
  have h := (medicines_order_pagination
      [⟨3, "c", 0, 0, "0", none⟩, ⟨1, "a", 0, 0, "0", none⟩,
       ⟨5, "e", 0, 0, "0", none⟩, ⟨2, "b", 0, 0, "0", none⟩,
       ⟨4, "d", 0, 0, "0", none⟩]
      (some ⟨none, none, none, some 2, some 1⟩) 0).2
      ⟨none, none, none, none, none⟩ 2 1 (by decide)
  exact h.trans (by decide)

/-- C10: in `getMedicines`, `limit = 0` and `offset = 0` are treated
exactly as if the fields were absent, because presence is tested by
truthiness: no row limit is applied and no rows are skipped. -/
theorem limit_offset_zero_as_absent (db : List MedicineRow) (today : Nat)
    (q : Option String) (ls es : Option Bool) :
    runMedicinesQuery db (some ⟨q, ls, es, some 0, some 0⟩) today
      = runMedicinesQuery db (some ⟨q, ls, es, none, none⟩) today := rfl

end RumahKhitan
